import Mathlib

/-!
Shallow embedding of the OctoGPT browser extension core (prompt extraction,
branch classification, heading cascade, sidebar navigation, scroll
synchronization, timer state and preference loading), translated from the
JavaScript sources `content/parser.js`, `content/content.js` and
`content/sidebar.js`.  JavaScript strings are modelled as `String` (and, for
the character-level text utilities, as `List Char`); JS `null`/`undefined`
become `Option`; DOM elements become records carrying exactly the data the
code reads from them; `Date.now()` and layout geometry are passed in as
explicit parameters.
-/

namespace OctoGPT

/-- Whitespace test used to model the JS `\s` class and `String.prototype.trim`
(restricted to the ASCII whitespace that actually occurs in the parsed UI text). -/
def jsWs (c : Char) : Bool :=
  c = ' ' || c = '\t' || c = '\n' || c = '\r'

/-- Model of JS `String.prototype.trim`: drop whitespace from both ends. -/
def jsTrim (s : List Char) : List Char :=
  ((s.dropWhile jsWs).reverse.dropWhile jsWs).reverse

/-- Helper for `collapseWs`: `prevWs` records whether the previous character
belonged to a whitespace run that has already emitted its single space. -/
def collapseWsAux : Bool → List Char → List Char
  | _, [] => []
  | prevWs, c :: rest =>
    if jsWs c then
      if prevWs then collapseWsAux true rest
      else ' ' :: collapseWsAux true rest
    else c :: collapseWsAux false rest

/-- Model of the regex replacement `text.replace(/\s+/g, ' ')` from
`BaseParser.cleanText`: every maximal whitespace run becomes a single space. -/
def collapseWs (cs : List Char) : List Char :=
  collapseWsAux false cs

/-- `BaseParser.cleanText` / `ChatGPTParser.cleanText`:
`text.replace(/\s+/g, ' ').trim()`. -/
def cleanTextL (cs : List Char) : List Char :=
  jsTrim (collapseWs cs)

/-- String-typed wrapper around `cleanTextL`. -/
def cleanText (s : String) : String :=
  ⟨cleanTextL s.data⟩

/-- `BaseParser.generatePreview(text, maxLength = 12)`: trim, return unchanged
when short enough, else first `maxLength` characters followed by `"..."`. -/
def generatePreview (text : List Char) (maxLength : Nat := 12) : List Char :=
  let cleaned := jsTrim text
  if cleaned.length ≤ maxLength then cleaned
  else cleaned.take maxLength ++ ['.', '.', '.']

/-- `OctoGPTSidebar.truncateText(text, maxLength)` from `content/sidebar.js`:
same trim/cut/ellipsis logic as `generatePreview`, with the length computed
from the sidebar width by the caller. -/
def truncateText (text : List Char) (maxLength : Nat) : List Char :=
  let cleaned := jsTrim text
  if cleaned.length ≤ maxLength then cleaned
  else cleaned.take maxLength ++ ['.', '.', '.']

/-! ### Counter text and conversation-id matching -/

/-- Maximal leading digit run: `none` when the text does not start with a digit,
otherwise the parsed decimal value (`parseInt` on a pure digit run) and the rest. -/
def parseDigits (cs : List Char) : Option (Nat × List Char) :=
  let run := cs.takeWhile Char.isDigit
  if run.isEmpty then none
  else some (run.foldl (fun n c => n * 10 + (c.toNat - ('0').toNat)) 0, cs.dropWhile Char.isDigit)

/-- One attempt of the regex `/(\d+)\s*\/\s*(\d+)/` anchored at the start of `cs`. -/
def tryCounterAt (cs : List Char) : Option (Nat × Nat) :=
  match parseDigits cs with
  | none => none
  | some (n1, rest) =>
    match rest.dropWhile jsWs with
    | '/' :: rest2 =>
      match parseDigits (rest2.dropWhile jsWs) with
      | some (n2, _) => some (n1, n2)
      | none => none
    | _ => none

/-- Leftmost match of `branchText.match(/(\d+)\s*\/\s*(\d+)/)` with both
captured groups run through `parseInt` (from `ChatGPTParser.getBranchInfo`). -/
def matchCounter : List Char → Option (Nat × Nat)
  | [] => none
  | c :: rest =>
    match tryCounterAt (c :: rest) with
    | some r => some r
    | none => matchCounter rest

/-- Character class `[a-zA-Z0-9-]` of the conversation-id regex. -/
def convIdChar (c : Char) : Bool :=
  (('a' ≤ c && c ≤ 'z') || ('A' ≤ c && c ≤ 'Z') || c.isDigit || c = '-')

/-- One attempt of `/\/c\/([a-zA-Z0-9-]+)/` anchored at the start of the list. -/
def tryConvIdAt : List Char → Option String
  | '/' :: 'c' :: '/' :: rest =>
    let run := rest.takeWhile convIdChar
    if run.isEmpty then none else some ⟨run⟩
  | _ => none

/-- Leftmost match for `ChatGPTParser.getConversationId`:
`window.location.pathname.match(/\/c\/([a-zA-Z0-9-]+)/)`, first capture group. -/
def convIdScan : List Char → Option String
  | [] => none
  | c :: rest =>
    match tryConvIdAt (c :: rest) with
    | some r => some r
    | none => convIdScan rest

/-- `ChatGPTParser.getConversationId()` as a function of the location pathname. -/
def getConversationId (pathname : String) : Option String :=
  convIdScan pathname.data

/-! ### DOM model

Each record carries exactly the data the parser reads from the corresponding
DOM node. `Option` models `null`/`undefined` query results. -/

/-- A version-navigation button (`button[aria-label*="Previous/Next response"]`):
its `disabled` flag and the `textContent` of its `parentElement`
(`none` when the button has no parent element). -/
structure Button where
  disabled : Bool
  parentText : Option String
deriving DecidableEq, Repr

/-- A conversation turn viewed as a heading container: its `data-testid`
attribute, whether it contains `[data-message-author-role="assistant"]`, and
its `h2`/`h3`/`h4`/`h5` heading texts in document order. -/
structure HContainer where
  testId : Option String
  hasAssistant : Bool
  h2 : List String
  h3 : List String
  h4 : List String
  h5 : List String
deriving DecidableEq, Repr

/-- The closest `[data-testid^="conversation-turn-"]` ancestor of a user
message: its `data-testid`, its prev/next version buttons (if any), and its
`nextElementSibling` viewed as a heading container. -/
structure Turn where
  testId : String
  prevButtonEl : Option Button
  nextButtonEl : Option Button
  nextSibling : Option HContainer
deriving DecidableEq, Repr

/-- A user-message element: the `textContent` of its markdown/content
sub-container if present, its own raw `textContent`, its closest conversation
turn, and whether it is connected to the document. -/
structure UserElement where
  contentText : Option String
  rawText : String
  turn : Option Turn
  isConnected : Bool := true
deriving DecidableEq, Repr

/-- The branch-information record produced by `ChatGPTParser.getBranchInfo`.
Fields that the JS object sometimes lacks (`current`, `total`, `prevButton`,
`nextButton`, and the diagnostic flags) are `Option`s, `none` = absent. -/
structure BranchInfo where
  hasBranches : Bool
  current : Option Nat := none
  total : Option Nat := none
  prevButton : Option Button := none
  nextButton : Option Button := none
  hasNavContainer : Option Bool := none
  hasMatch : Option Bool := none
deriving DecidableEq, Repr

/-- A heading record `{ level, text, turnId, index }` as built by
`extractHeadingsFromElement`. -/
structure Heading where
  level : String
  text : String
  turnId : Option String
  index : Nat
deriving DecidableEq, Repr

/-- A prompt record as built by `extractPromptData`, plus the
`isBranchPoint`/`inBranch`/`branchStartIndex` annotations that
`detectActiveBranch` adds later (absent = `false`/`none` initially). -/
structure Prompt where
  id : String
  index : Nat
  text : String
  preview : String
  timestamp : Nat
  isEdited : Bool
  branchInfo : Option BranchInfo
  element : UserElement
  headings : List Heading
  isBranchPoint : Bool := false
  inBranch : Bool := false
  branchStartIndex : Option Nat := none
deriving DecidableEq, Repr

/-! ### ChatGPT adapter functions (`content/parser.js`) -/

/-- The nav container's text:
`prevButtonEl?.parentElement || nextButtonEl?.parentElement` (we keep only its
`textContent`, which is all `getBranchInfo` reads from it). -/
def navTextOf (t : Turn) : Option String :=
  match t.prevButtonEl.bind (fun b => b.parentText) with
  | some txt => some txt
  | none => t.nextButtonEl.bind (fun b => b.parentText)

/-- `ChatGPTParser.getBranchInfo(element)`: `none` models the `null` returned
when the element has no conversation-turn ancestor. -/
def getBranchInfo (el : UserElement) : Option BranchInfo :=
  match el.turn with
  | none => none
  | some parent =>
    if parent.prevButtonEl.isNone && parent.nextButtonEl.isNone then
      some { hasBranches := false }
    else
      let prevButton := match parent.prevButtonEl with
        | some b => if !b.disabled then some b else none
        | none => none
      let nextButton := match parent.nextButtonEl with
        | some b => if !b.disabled then some b else none
        | none => none
      match navTextOf parent with
      | none =>
        some { hasBranches := true, hasNavContainer := some false,
               prevButton := prevButton, nextButton := nextButton }
      | some branchText =>
        match matchCounter branchText.data with
        | some (cur, tot) =>
          some { hasBranches := true, current := some cur, total := some tot,
                 prevButton := prevButton, nextButton := nextButton }
        | none =>
          some { hasBranches := true, hasMatch := some false,
                 prevButton := prevButton, nextButton := nextButton }

/-- The `isEdited` computation from `extractPromptData`:
`branchInfo?.hasBranches ?? false`. -/
def isEditedOf (el : UserElement) : Bool :=
  match getBranchInfo el with
  | some bi => bi.hasBranches
  | none => false

/-- `ChatGPTParser.getMessageText(element)`: prefer the markdown/content
sub-container, else the element's raw text, cleaned either way. -/
def getMessageText (el : UserElement) : String :=
  match el.contentText with
  | some t => cleanText t
  | none => if el.rawText ≠ "" then cleanText el.rawText else ""

/-- `querySelectorAll(level)` on a heading container, for the four tiers the
ChatGPT cascade inspects. -/
def headingsAt (c : HContainer) (level : String) : List String :=
  if level = ("h2") then c.h2
  else if level = ("h3") then c.h3
  else if level = ("h4") then c.h4
  else if level = ("h5") then c.h5
  else []

/-- The tier loop of `ChatGPTParser.extractHeadingsFromElement`: at the first
level with at least one match, map all matches of that level (and only that
level) to heading records and stop. -/
def firstTier (c : HContainer) : List String → List Heading
  | [] => []
  | lv :: rest =>
    let hs := headingsAt c lv
    if hs.isEmpty then firstTier c rest
    else hs.enum.map fun p =>
      { level := lv, text := ⟨jsTrim p.2.data⟩, turnId := c.testId, index := p.1 }

/-- `ChatGPTParser.extractHeadingsFromElement(container)`: try
`['h2','h3','h4','h5']` in order. -/
def extractHeadingsFromElement (c : HContainer) : List Heading :=
  firstTier c [("h2"), ("h3"), ("h4"), ("h5")]

/-- `ChatGPTParser.extractAssistantHeadings(userElement)`: locate the user
turn, look for an assistant message in the next sibling turn, and extract
headings from it; `[]` on every failed resolution step. -/
def extractAssistantHeadings (el : UserElement) : List Heading :=
  match el.turn with
  | none => []
  | some userTurn =>
    match userTurn.nextSibling with
    | none => []
    | some nextTurn =>
      if nextTurn.hasAssistant then extractHeadingsFromElement nextTurn else []

/-- `ChatGPTParser.generatePromptId(element, index)`: the turn's `data-testid`
when truthy, else `prompt-<conversationId>-<index>`. -/
def generatePromptId (el : UserElement) (idx : Nat) (cid : String) : String :=
  match el.turn with
  | some t => if !t.testId.isEmpty then t.testId else s!"prompt-{cid}-{idx}"
  | none => s!"prompt-{cid}-{idx}"

/-- `ChatGPTParser.extractPromptData(element, index)`; `now` stands for
`Date.now()`. Returns `none` when the text content is empty/whitespace-only. -/
def extractPromptData (el : UserElement) (idx : Nat) (cid : String) (now : Nat) :
    Option Prompt :=
  let textContent := getMessageText el
  if textContent.isEmpty || (jsTrim textContent.data).isEmpty then none
  else
    let branchInfo := getBranchInfo el
    let isEdited := match branchInfo with
      | some bi => bi.hasBranches
      | none => false
    some { id := generatePromptId el idx cid
           index := idx
           text := textContent
           preview := ⟨generatePreview textContent.data 12⟩
           timestamp := now
           isEdited := isEdited
           branchInfo := branchInfo
           element := el
           headings := extractAssistantHeadings el }

/-- A `[data-testid^="conversation-turn-"]` element as inspected by the first
fallback of `findUserMessagesWithFallback`. -/
structure TurnEl where
  hasAssistantAvatar : Bool
  hasMessageContent : Bool
  asUser : UserElement
deriving DecidableEq, Repr

/-- A `main .text-base` element as inspected by `looksLikeUserMessage`. -/
structure TextBaseEl where
  textContent : String
  hasTypingIndicator : Bool
  hasStopButton : Bool
  hasCopyButton : Bool
  asUser : UserElement
deriving DecidableEq, Repr

/-- Contiguous substring test on char lists (helper for `jsIncludes`). -/
def jsIncludesL (sub : List Char) : List Char → Bool
  | [] => sub.isEmpty
  | c :: rest => sub.isPrefixOf (c :: rest) || jsIncludesL sub rest

/-- Model of `s.includes(sub)`: contiguous substring containment. -/
def jsIncludes (s sub : String) : Bool :=
  jsIncludesL sub.data s.data

/-- `ChatGPTParser.looksLikeUserMessage(element)`. -/
def looksLikeUserMessage (e : TextBaseEl) : Bool :=
  let text : String := ⟨jsTrim e.textContent.data⟩
  if text.isEmpty then false
  else if text.startsWith ("window.__oai_") || jsIncludes text ("__oai_SSR_HTML") then false
  else if e.hasCopyButton then false
  else if e.hasTypingIndicator then false
  else if e.hasStopButton then false
  else true

/-- The document as read by the ChatGPT adapter: the primary
`[data-message-author-role="user"]` query result and the two fallback queries. -/
structure DomDoc where
  userMessages : List UserElement
  turnElements : List TurnEl
  textBaseEls : List TextBaseEl
deriving DecidableEq, Repr

/-- `ChatGPTParser.findUserMessagesWithFallback()`: turns without an assistant
avatar but with message content; if none, `main .text-base` elements passing
`looksLikeUserMessage`. -/
def findUserMessagesWithFallback (doc : DomDoc) : List UserElement :=
  let elements := doc.turnElements.filterMap fun t =>
    if !t.hasAssistantAvatar && t.hasMessageContent then some t.asUser else none
  if elements.isEmpty then
    doc.textBaseEls.filterMap fun m =>
      if looksLikeUserMessage m then some m.asUser else none
  else elements

/-- `ChatGPTParser.findUserMessages()`: primary selector first, fallback when
it finds nothing, then `extractPromptData` on each element, skipping `null`s. -/
def findUserMessages (doc : DomDoc) (cid : String) (now : Nat) : List Prompt :=
  let userElements :=
    if doc.userMessages.isEmpty then findUserMessagesWithFallback doc
    else doc.userMessages
  userElements.enum.filterMap fun p => extractPromptData p.2 p.1 cid now

/-- `ChatGPTParser.extractAllPrompts()` as a function of the document snapshot,
the location pathname, and the clock. -/
def extractAllPrompts (doc : DomDoc) (pathname : String) (now : Nat) : List Prompt :=
  match getConversationId pathname with
  | none => []
  | some cid => findUserMessages doc cid now

/-! ### Branch classifier (`BaseParser.detectActiveBranch`, identical body in
`ChatGPTParser.detectActiveBranch` of `content/parser.js`) -/

/-- The inner loop body: `prompts[j].inBranch = true; prompts[j].branchStartIndex = i`. -/
def setPending (i : Nat) (q : Prompt) : Prompt :=
  { q with inBranch := true, branchStartIndex := some i }

/-- The inner loop `for (j = i + 1; j < prompts.length; j++)`: it touches every
prompt after index `i`, i.e. the whole remaining suffix. -/
def markInBranch (i : Nat) (ps : List Prompt) : List Prompt :=
  ps.map (setPending i)

/-- The left-to-right outer scan of `detectActiveBranch`, with `i` the absolute
index of the head of the unprocessed suffix: an edited prompt is marked as a
branch point and every later prompt gets `inBranch`/`branchStartIndex := i`
(later edited prompts overwrite these again). -/
def detectFrom (i : Nat) : List Prompt → List Prompt
  | [] => []
  | p :: rest =>
    if p.isEdited then
      { p with isBranchPoint := true } :: detectFrom (i + 1) (markInBranch i rest)
    else
      p :: detectFrom (i + 1) rest
termination_by ps => ps.length
decreasing_by
  · simp [markInBranch]
  · simp

/-- `detectActiveBranch()` on the extracted prompt list. -/
def detectActiveBranch (ps : List Prompt) : List Prompt :=
  detectFrom 0 ps

/-- Greatest index `k < j` with `ps[k].isEdited`, the "latest edit point"
before position `j` (specification-side helper for stating latest-edit-wins). -/
def lastEdited : List Prompt → Nat → Option Nat
  | _, 0 => none
  | [], _ + 1 => none
  | p :: rest, j + 1 =>
    match lastEdited rest j with
    | some k => some (k + 1)
    | none => if p.isEdited then some 0 else none

/-! ### Claude adapter heading extraction (`ClaudeParser` in
`content/parser.js`) -/

/-- A structural heading element inside a Claude response container: its raw
`textContent` and whether it sits inside a `[data-testid="user-message"]`. -/
structure CHeadingEl where
  text : String
  inUserMessage : Bool
deriving DecidableEq, Repr

/-- A `<strong>` element as inspected by `ClaudeParser.extractStrongHeadings`:
its raw text, whether it is inside a user message, and the `textContent` of its
closest `<p>` ancestor (`none` when it has no paragraph ancestor). -/
structure StrongEl where
  text : String
  inUserMessage : Bool
  paragraphText : Option String
deriving DecidableEq, Repr

/-- A Claude message container (`[data-test-render-count]` wrapper): its
render-count attribute and its heading and `<strong>` elements per tier. -/
structure ClaudeContainer where
  renderCount : Option String
  h1 : List CHeadingEl
  h2 : List CHeadingEl
  h3 : List CHeadingEl
  h4 : List CHeadingEl
  h5 : List CHeadingEl
  strongs : List StrongEl
deriving DecidableEq, Repr

/-- `querySelectorAll(level)` on a Claude container, for tiers `h1`–`h5`. -/
def claudeHeadingsAt (c : ClaudeContainer) (level : String) : List CHeadingEl :=
  if level = ("h1") then c.h1
  else if level = ("h2") then c.h2
  else if level = ("h3") then c.h3
  else if level = ("h4") then c.h4
  else if level = ("h5") then c.h5
  else []

/-- The `turnId` computation of `ClaudeParser.extractHeadingsFromElement`:
`containerId ? ... : container.getAttribute(...) ? ... : Date.now()`, with JS
string truthiness (the empty string is falsy). -/
def claudeTurnId (c : ClaudeContainer) (containerId : Option String) (now : Nat) :
    String :=
  match containerId with
  | some cid =>
    if !cid.isEmpty then ("claude-response-") ++ cid
    else match c.renderCount with
      | some rc => if !rc.isEmpty then ("claude-response-") ++ rc
                   else ("claude-response-") ++ toString now
      | none => ("claude-response-") ++ toString now
  | none =>
    match c.renderCount with
    | some rc => if !rc.isEmpty then ("claude-response-") ++ rc
                 else ("claude-response-") ++ toString now
    | none => ("claude-response-") ++ toString now

/-- `ClaudeParser.extractStrongHeadings(container, turnId)`: keep `<strong>`
texts outside user messages that are nonempty, at most 100 characters, and are
(nearly) the whole of their paragraph. -/
def extractStrongHeadings (c : ClaudeContainer) (turnId : String) : List Heading :=
  c.strongs.foldl
    (fun acc st =>
      if st.inUserMessage then acc
      else
        let text := jsTrim st.text.data
        if text.isEmpty || 100 < text.length then acc
        else match st.paragraphText with
          | none => acc
          | some ptxtRaw =>
            let ptxt := jsTrim ptxtRaw.data
            if ptxt = text || (text.isPrefixOf ptxt && ptxt.length < text.length + 20) then
              acc ++ [{ level := ("strong"), text := ⟨text⟩,
                        turnId := some turnId, index := acc.length }]
            else acc)
    []

/-- The structural-tier loop of `ClaudeParser.extractHeadingsFromElement`:
first tier whose headings (excluding those inside the user message) are
nonempty, `none` when all five tiers are empty. -/
def claudeFirstTier (c : ClaudeContainer) (turnId : String) :
    List String → Option (List Heading)
  | [] => none
  | lv :: rest =>
    let hs := (claudeHeadingsAt c lv).filter fun h => !h.inUserMessage
    if hs.isEmpty then claudeFirstTier c turnId rest
    else some (hs.enum.map fun p =>
      { level := lv, text := ⟨jsTrim p.2.text.data⟩, turnId := some turnId, index := p.1 })

/-- `ClaudeParser.extractHeadingsFromElement(container, containerId)`:
structural tiers `h1`–`h5` first, then the `<strong>` pseudo-heading fallback. -/
def claudeExtractHeadings (c : ClaudeContainer) (containerId : Option String)
    (now : Nat) : List Heading :=
  let turnId := claudeTurnId c containerId now
  match claudeFirstTier c turnId [("h1"), ("h2"), ("h3"), ("h4"), ("h5")] with
  | some r => r
  | none =>
    let strongHeadings := extractStrongHeadings c turnId
    if !strongHeadings.isEmpty then strongHeadings else []

/-! ### Sidebar navigation state machine (`content/sidebar.js`) -/

/-- One entry of `flatNavigationList` as built by `buildNavigationList`:
either a prompt entry or a heading entry. -/
inductive NavItem where
  | promptI (promptIndex : Nat) (element : UserElement)
  | headingI (promptIndex headingIndex : Nat) (heading : Heading)
deriving DecidableEq, Repr

/-- The sidebar state fields involved in keyboard traversal. JS uses `-1` as a
"not navigating" sentinel for both indices, so they are `Int`s. The collapse
set is kept as a list of prompt indices. -/
structure SidebarState where
  prompts : List Prompt
  collapsedPrompts : List Nat
  currentPromptIndex : Int
  navigationIndex : Int
  flatNavigationList : List NavItem
deriving DecidableEq, Repr

/-- `OctoGPTSidebar.buildNavigationList()`: every prompt in order, each
followed by its headings when it has any and is not collapsed. -/
def buildNavigationList (prompts : List Prompt) (collapsed : List Nat) :
    List NavItem :=
  (prompts.enum.map fun pp =>
    NavItem.promptI pp.1 pp.2.element ::
      (if !pp.2.headings.isEmpty && !collapsed.contains pp.1 then
        pp.2.headings.enum.map fun hh => NavItem.headingI pp.1 hh.1 hh.2
      else [])).flatten

/-- `OctoGPTSidebar.handlePromptClick(index)` restricted to its state effect:
no-op on a missing prompt or a disconnected element, otherwise sets the active
prompt index. -/
def handlePromptClick (s : SidebarState) (idx : Nat) : SidebarState :=
  match s.prompts[idx]? with
  | none => s
  | some p =>
    if !p.element.isConnected then s
    else { s with currentPromptIndex := (idx : Int) }

/-- `OctoGPTSidebar.navigateToIndex(index)` restricted to its state effect:
bounds guard, set `navigationIndex`, then per item either activate the prompt
or (for a heading of a collapsed prompt) expand it, rebuild the list, re-find
the heading by `(promptIndex, headingIndex)`, and finally clear the active
prompt (`highlightHeadingInSidebar` sets `currentPromptIndex = -1`). -/
def navigateToIndex (s : SidebarState) (index : Int) : SidebarState :=
  if index < 0 ∨ (s.flatNavigationList.length : Int) ≤ index then s
  else
    let s1 := { s with navigationIndex := index }
    match s1.flatNavigationList[index.toNat]? with
    | none => s1
    | some (NavItem.promptI pi _) => { s1 with currentPromptIndex := (pi : Int) }
    | some (NavItem.headingI pi hi _) =>
      let s2 :=
        if s1.collapsedPrompts.contains pi then
          let collapsed' := s1.collapsedPrompts.filter fun k => k ≠ pi
          let navList' := buildNavigationList s1.prompts collapsed'
          let s' := { s1 with collapsedPrompts := collapsed',
                              flatNavigationList := navList' }
          match navList'.findIdx? (fun it =>
            match it with
            | NavItem.headingI pi' hi' _ => pi' == pi && hi' == hi
            | _ => false) with
          | some newIdx => { s' with navigationIndex := (newIdx : Int) }
          | none => s'
        else s1
      { s2 with currentPromptIndex := -1 }

/-- The `Alt+ArrowUp/ArrowDown` branch of `OctoGPTSidebar.handleKeyDown`
("all items" traversal). `visIdx` stands for the result of
`findVisibleNavigationIndex()` (a layout query); `down` selects the direction
(`ArrowDown` steps `+1`, `ArrowUp` steps `-1`). -/
def handleAltArrow (s : SidebarState) (visIdx : Nat) (down : Bool) : SidebarState :=
  let s1 :=
    if s.flatNavigationList.isEmpty then
      { s with flatNavigationList := buildNavigationList s.prompts s.collapsedPrompts }
    else s
  if s1.flatNavigationList.isEmpty then s1
  else
    let s2 := if s1.navigationIndex = -1 then { s1 with navigationIndex := (visIdx : Int) }
              else s1
    let dir : Int := if down then 1 else -1
    let newIndex := s2.navigationIndex + dir
    if 0 ≤ newIndex ∧ newIndex < (s2.flatNavigationList.length : Int) then
      navigateToIndex s2 newIndex
    else s2

/-- The `Alt+Shift+ArrowUp/ArrowDown` branch of `handleKeyDown` ("prompts
only" traversal); `visPrompt` stands for `findVisiblePromptIndex()`. -/
def handleAltShiftArrow (s : SidebarState) (visPrompt : Nat) (down : Bool) :
    SidebarState :=
  if s.prompts.isEmpty then s
  else
    let cur : Int := if s.currentPromptIndex = -1 then (visPrompt : Int)
                     else s.currentPromptIndex
    let dir : Int := if down then 1 else -1
    let newIndex := cur + dir
    if 0 ≤ newIndex ∧ newIndex < (s.prompts.length : Int) then
      handlePromptClick s newIndex.toNat
    else s

/-! ### Sidebar prompt-item rendering guards (`createPromptItem`) -/

/-- `const hasBranches = prompt.isBranchPoint && prompt.branchInfo`. -/
def promptItemHasBranches (p : Prompt) : Bool :=
  p.isBranchPoint && p.branchInfo.isSome

/-- `const hasPrev = hasBranches && prompt.branchInfo.prevButton`: the `<`
branch button is rendered exactly when this is true. -/
def promptItemHasPrev (p : Prompt) : Bool :=
  promptItemHasBranches p && (p.branchInfo.bind fun bi => bi.prevButton).isSome

/-- `const hasNext = hasBranches && prompt.branchInfo.nextButton`: the `>`
branch button is rendered exactly when this is true. -/
def promptItemHasNext (p : Prompt) : Bool :=
  promptItemHasBranches p && (p.branchInfo.bind fun bi => bi.nextButton).isSome

/-! ### Preference loading (`OctoGPTSidebar.loadState`) -/

/-- The constructor's `this.config` defaults from `content/sidebar.js`. -/
structure SidebarConfig where
  defaultWidth : Int := 200
  minWidth : Int := 120
  maxWidth : Int := 400
  scrollDuration : Int := 100
deriving DecidableEq, Repr

/-- The fresh configuration built in the `OctoGPTSidebar` constructor. -/
def initialConfig : SidebarConfig := {}

/-- The value of `chrome.storage.local.get(['sidebarPinned', 'sidebarWidth',
'scrollDuration'])`: each key may be absent. -/
structure StoredState where
  sidebarPinned : Option Bool
  sidebarWidth : Option Int
  scrollDuration : Option Int
deriving DecidableEq, Repr

/-- The sidebar fields `loadState` assigns. -/
structure LoadedPrefs where
  isPinned : Bool
  isVisible : Bool
  width : Int
  scrollDur : Int
deriving DecidableEq, Repr

/-- `OctoGPTSidebar.loadState()`: `res = none` models the storage read
throwing (the `catch` branch). A stored width is applied only when truthy and
within `[minWidth, maxWidth]`; a stored scroll duration only when defined and
within `[0, 600]`. -/
def loadState (res : Option StoredState) (cfg : SidebarConfig) : LoadedPrefs :=
  match res with
  | none => { isPinned := false, isVisible := false, width := 200, scrollDur := 100 }
  | some r =>
    let isPinned := match r.sidebarPinned with
      | some b => b
      | none => false
    let width := match r.sidebarWidth with
      | some w => if w ≠ 0 ∧ cfg.minWidth ≤ w ∧ w ≤ cfg.maxWidth then w
                  else cfg.defaultWidth
      | none => cfg.defaultWidth
    let dur := match r.scrollDuration with
      | some d => if 0 ≤ d ∧ d ≤ 600 then d else cfg.scrollDuration
      | none => cfg.scrollDuration
    { isPinned := isPinned, isVisible := isPinned, width := width, scrollDur := dur }

/-! ### Content-script timer state (`content/content.js`) -/

/-- The `OctoGPT` controller fields relevant to timer lifecycle. Pending
`setTimeout` handles are `some id`; `none` means no timer in flight. -/
structure ContentState where
  debounceTimer : Option Nat
  streamingPollTimer : Option Nat
  lastUrl : String
  loadingState : Option String
  waitingForContent : Bool
deriving DecidableEq, Repr

/-- The `locationchange` listener body from `setupNavigationListener`: on a
URL change it records the new URL, sets the sidebar loading state, and starts
`waitForContentAndExtract` — and touches nothing else. -/
def onLocationChange (s : ContentState) (currentUrl : String) : ContentState :=
  if currentUrl ≠ s.lastUrl then
    { s with lastUrl := currentUrl
             loadingState := some ("waiting")
             waitingForContent := true }
  else s

/-- `OctoGPT.debouncedUpdate()`: clear the old debounce timer and schedule a
new one (`newTimer` is the fresh `setTimeout` handle). -/
def debouncedUpdate (s : ContentState) (newTimer : Nat) : ContentState :=
  { s with debounceTimer := some newTimer }

/-- `OctoGPT.scheduleStreamingPoll()`: clear the old poll timer, and schedule a
new one only while streaming is observed. -/
def scheduleStreamingPoll (s : ContentState) (streaming : Bool) (newTimer : Nat) :
    ContentState :=
  let s1 := { s with streamingPollTimer := none }
  if streaming then { s1 with streamingPollTimer := some newTimer } else s1

/-- `OctoGPT.destroy()` restricted to timers: clears both pending timers
(runs only on `beforeunload`). -/
def destroyTimers (s : ContentState) : ContentState :=
  { s with debounceTimer := none, streamingPollTimer := none }

/-! ### Scroll synchronization (`scrollToElement`, `smoothScrollTo`,
`scrollSidebarToItem` in `content/sidebar.js`) -/

/-- A bounding-client rect (we record `top` and `height`; `bottom` is derived,
as for a DOM rect). Coordinates are rationals, modelling the JS floats. -/
structure Rect where
  top : ℚ
  height : ℚ
deriving DecidableEq, Repr

/-- `rect.bottom`. -/
def Rect.bottom (r : Rect) : ℚ := r.top + r.height

/-- A scrollable region: its viewport rect and current `scrollTop`. -/
structure Viewport where
  rect : Rect
  scrollTop : ℚ
deriving DecidableEq, Repr

/-- The centering destination computed by `scrollToElement`:
`scrollTop + elRect.top - contRect.top - contRect.height/2 + elRect.height/2`,
clamped below at `0` by `Math.max(0, targetScroll)`. -/
def scrollToElementTarget (c : Viewport) (el : Rect) : ℚ :=
  let elementOffsetInContainer := c.scrollTop + el.top - c.rect.top
  max 0 (elementOffsetInContainer - c.rect.height / 2 + el.height / 2)

/-- `easeOutCubic(t) = 1 - (1 - t)^3`. -/
def easeOutCubic (t : ℚ) : ℚ := 1 - (1 - t) ^ 3

/-- The scroll offset `smoothScrollTo` assigns on a frame at time `elapsed`
(for `duration ≤ 0` the assignment is an instant jump to the target). -/
def smoothScrollTopAt (startTop targetTop duration elapsed : ℚ) : ℚ :=
  if duration ≤ 0 then targetTop
  else
    let progress := min (elapsed / duration) 1
    startTop + (targetTop - startTop) * easeOutCubic progress

/-- `OctoGPTSidebar.scrollSidebarToItem` reduced to its scroll effect on the
panel viewport: `none` target models an unresolvable item (early return); a
resolved target scrolls only when it lies (partly) outside the visible band,
to the centering offset clamped at `0`. -/
def scrollSidebarToItem (content : Viewport) (target : Option Rect) : Viewport :=
  match target with
  | none => content
  | some t =>
    if t.top < content.rect.top ∨ content.rect.bottom < t.bottom then
      let targetOffsetInContent := content.scrollTop + t.top - content.rect.top
      let targetScroll := targetOffsetInContent - content.rect.height / 2 + t.height / 2
      { content with scrollTop := max 0 targetScroll }
    else content

/-! ### Specification-side helpers and concrete example data -/

/-- A pending `inBranch`/`branchStartIndex` annotation carried by the scan:
`some k` means every element of the suffix was last stamped by the edit point
at absolute index `k`. -/
def applyPend : Option Nat → List Prompt → List Prompt
  | none, ps => ps
  | some k, ps => markInBranch k ps

/-- The final annotation of one prompt whose effective latest edit point is
`eff`: stamp `inBranch`/`branchStartIndex` when `eff` is set, and
`isBranchPoint` when the prompt itself is edited. -/
def annotate (eff : Option Nat) (p : Prompt) : Prompt :=
  let p1 := match eff with
    | some k => setPending k p
    | none => p
  if p.isEdited then { p1 with isBranchPoint := true } else p1

/-- Effective pending annotation at relative position `j` of a suffix starting
at absolute index `i` with incoming pending `b`. -/
def effPend (b : Option Nat) (i : Nat) (ps : List Prompt) (j : Nat) : Option Nat :=
  match lastEdited ps j with
  | some k => some (i + k)
  | none => b

/-- Forgets the `Date.now()` timestamp of a prompt (the one field of
`extractPromptData`'s result that depends on the clock). -/
def stripT (p : Prompt) : Prompt :=
  { p with timestamp := 0 }

/-- A detached dummy user element for building concrete prompt lists. -/
def dummyEl : UserElement :=
  { contentText := none, rawText := "", turn := none }

/-- A minimal prompt with a chosen `isEdited` flag. -/
def mkPrompt (edited : Bool) : Prompt :=
  { id := "", index := 0, text := "", preview := "", timestamp := 0,
    isEdited := edited, branchInfo := none, element := dummyEl, headings := [] }

/-- The five-prompt scenario `[P0..P4]` of the specification, with `P1` and
`P3` edited. -/
def exPrompts5 : List Prompt :=
  [mkPrompt false, mkPrompt true, mkPrompt false, mkPrompt true, mkPrompt false]

/-- A turn whose only version-navigation affordance is a disabled Previous
button with no parent element (counterexample input for edit detection). -/
def c3El : UserElement :=
  { contentText := some ("hello"), rawText := "hello",
    turn := some { testId := ("conversation-turn-2"),
                   prevButtonEl := some { disabled := true, parentText := none },
                   nextButtonEl := none,
                   nextSibling := none } }

/-- A turn exposing a fully enabled version navigator with counter text
`"2 / 2"` (witness input). -/
def c3WEl : UserElement :=
  { contentText := some ("hi"), rawText := "hi",
    turn := some { testId := ("conversation-turn-4"),
                   prevButtonEl := some { disabled := false, parentText := some ("2 / 2") },
                   nextButtonEl := some { disabled := true, parentText := some ("2 / 2") },
                   nextSibling := none } }

/-- A heading used in the concrete sidebar state. -/
def exHeading : Heading :=
  { level := ("h2"), text := ("Intro"), turnId := none, index := 0 }

/-- A prompt with the given headings, for the concrete sidebar state. -/
def mkSidebarPrompt (hs : List Heading) : Prompt :=
  { mkPrompt false with headings := hs }

/-- A concrete sidebar state with two prompts (the first has one heading), an
expanded collapse set, and a freshly built navigation list of three items. -/
def exSidebar : SidebarState :=
  { prompts := [mkSidebarPrompt [exHeading], mkSidebarPrompt []]
    collapsedPrompts := []
    currentPromptIndex := 1
    navigationIndex := 2
    flatNavigationList :=
      buildNavigationList [mkSidebarPrompt [exHeading], mkSidebarPrompt []] [] }

/-- A content-script state with both timers pending for conversation `aaa`. -/
def c6State : ContentState :=
  { debounceTimer := some 7, streamingPollTimer := some 9,
    lastUrl := ("https://chatgpt.com/c/aaa"), loadingState := none,
    waitingForContent := false }

/-! ## Theorems -/

/-- C10: preview/truncation bound. For every string (as a char list) and every
positive `maxLength`, `generatePreview` and `truncateText` return the trimmed
input unchanged when it is short enough, else exactly the first `maxLength`
characters of the trimmed input followed by `"..."`; the result length never
exceeds `maxLength + 3`. -/
theorem generatePreview_truncateText_bound (text : List Char) (maxLength : Nat)
    (hpos : 0 < maxLength) :
    ((jsTrim text).length ≤ maxLength →
      generatePreview text maxLength = jsTrim text ∧
      truncateText text maxLength = jsTrim text) ∧
    (maxLength < (jsTrim text).length →
      generatePreview text maxLength = (jsTrim text).take maxLength ++ ['.', '.', '.'] ∧
      truncateText text maxLength = (jsTrim text).take maxLength ++ ['.', '.', '.'] ∧
      (generatePreview text maxLength).length = maxLength + 3) ∧
    (generatePreview text maxLength).length ≤ maxLength + 3 ∧
    (truncateText text maxLength).length ≤ maxLength + 3 := by
  have hlen : ((jsTrim text).take maxLength ++ ['.', '.', '.']).length =
      min maxLength (jsTrim text).length + 3 := by
    simp [List.length_take]
  refine ⟨fun hle => ?_, fun hgt => ?_, ?_, ?_⟩
  · constructor <;> simp [generatePreview, truncateText, hle]
  · have hc : ¬((jsTrim text).length ≤ maxLength) := by omega
    refine ⟨by simp [generatePreview, hc], by simp [truncateText, hc], ?_⟩
    simp only [generatePreview, if_neg hc, hlen]
    omega
  · by_cases hle : (jsTrim text).length ≤ maxLength
    · simp [generatePreview, hle]; omega
    · simp only [generatePreview, if_neg hle, hlen]; omega
  · by_cases hle : (jsTrim text).length ≤ maxLength
    · simp [truncateText, hle]; omega
    · simp only [truncateText, if_neg hle, hlen]; omega

/-- Witness for the preview/truncation bound at a concrete input. -/
theorem generatePreview_truncateText_bound_witness :
    0 < 5 ∧
    generatePreview (("  hello world  ").data) 5 = (("hello")).data ++ ['.', '.', '.'] ∧
    (generatePreview (("  hello world  ").data) 5).length ≤ 5 + 3 := by
  have h := generatePreview_truncateText_bound (("  hello world  ").data) 5 (by decide)
  exact ⟨by decide, by rw [(h.2.1 (by decide)).1]; decide, h.2.2.1⟩

/-! ### Branch classifier characterization -/

theorem markInBranch_markInBranch (i k : Nat) (ps : List Prompt) :
    markInBranch i (markInBranch k ps) = markInBranch i ps := by
  simp only [markInBranch, List.map_map]
  rfl

theorem applyPend_cons (b : Option Nat) (p : Prompt) (rest : List Prompt) :
    applyPend b (p :: rest) =
      (match b with
        | some k => setPending k p
        | none => p) :: applyPend b rest := by
  cases b <;> simp [applyPend, markInBranch]

theorem setPending_isEdited (k : Nat) (p : Prompt) :
    (setPending k p).isEdited = p.isEdited := rfl

theorem effPend_zero (b : Option Nat) (i : Nat) (ps : List Prompt) :
    effPend b i ps 0 = b := by
  cases ps <;> rfl

theorem effPend_cons (b : Option Nat) (i : Nat) (p : Prompt) (rest : List Prompt)
    (j : Nat) :
    effPend b i (p :: rest) (j + 1) =
      effPend (if p.isEdited then some i else b) (i + 1) rest j := by
  simp only [effPend, lastEdited]
  cases hle : lastEdited rest j with
  | none =>
    cases hE : p.isEdited <;> simp
  | some k =>
    simp only []
    congr 1
    omega

theorem detectFrom_applyPend_get (ps : List Prompt) :
    ∀ (b : Option Nat) (i j : Nat),
      (detectFrom i (applyPend b ps))[j]? =
        (ps[j]?).map (annotate (effPend b i ps j)) := by
  induction ps with
  | nil =>
    intro b i j
    cases b <;> simp [detectFrom, applyPend, markInBranch]
  | cons p rest ih =>
    intro b i j
    rw [applyPend_cons]
    cases j with
    | zero =>
      rw [effPend_zero]
      cases b with
      | none =>
        cases hE : p.isEdited <;>
          simp [detectFrom, hE, annotate]
      | some k =>
        cases hE : p.isEdited <;>
          simp [detectFrom, hE, annotate, setPending]
    | succ j' =>
      rw [effPend_cons]
      cases b with
      | none =>
        cases hE : p.isEdited
        · simpa [detectFrom, hE] using ih none (i + 1) j'
        · have := ih (some i) (i + 1) j'
          simp only [applyPend] at this
          simpa [detectFrom, hE] using this
      | some k =>
        cases hE : p.isEdited
        · have := ih (some k) (i + 1) j'
          simp only [applyPend] at this
          simpa [detectFrom, setPending_isEdited, hE] using this
        · have := ih (some i) (i + 1) j'
          simp only [applyPend] at this
          rw [← markInBranch_markInBranch i k rest] at this
          simpa [detectFrom, setPending_isEdited, hE] using this

theorem detectActiveBranch_get (ps : List Prompt) (j : Nat) :
    (detectActiveBranch ps)[j]? = (ps[j]?).map (annotate (lastEdited ps j)) := by
  have h := detectFrom_applyPend_get ps none 0 j
  simp only [applyPend] at h
  rw [detectActiveBranch, h]
  congr 1
  simp only [effPend]
  cases hle : lastEdited ps j <;> simp

theorem lastEdited_none_not (ps : List Prompt) :
    ∀ j, lastEdited ps j = none →
      ∀ m, m < j → ∀ p, ps[m]? = some p → p.isEdited = false := by
  induction ps with
  | nil =>
    intro j _ m _ p hp
    simp at hp
  | cons q rest ih =>
    intro j hj m hm p hp
    cases j with
    | zero => omega
    | succ j' =>
      simp only [lastEdited] at hj
      cases hle : lastEdited rest j' with
      | some k => rw [hle] at hj; simp at hj
      | none =>
        rw [hle] at hj
        cases hE : q.isEdited
        · cases m with
          | zero =>
            simp at hp
            rw [← hp]; exact hE
          | succ m' =>
            simp only [List.getElem?_cons_succ] at hp
            exact ih j' hle m' (by omega) p hp
        · rw [hE] at hj; simp at hj

theorem lastEdited_spec (ps : List Prompt) :
    ∀ j k, lastEdited ps j = some k →
      k < j ∧ (∃ p, ps[k]? = some p ∧ p.isEdited = true) ∧
        ∀ m, k < m → m < j → ∀ q, ps[m]? = some q → q.isEdited = false := by
  induction ps with
  | nil =>
    intro j k hk
    cases j <;> simp [lastEdited] at hk
  | cons p rest ih =>
    intro j k hk
    cases j with
    | zero => simp [lastEdited] at hk
    | succ j' =>
      simp only [lastEdited] at hk
      cases hle : lastEdited rest j' with
      | some k' =>
        rw [hle] at hk
        simp only [Option.some.injEq] at hk
        obtain ⟨h1, ⟨pk, hpk, hpke⟩, h3⟩ := ih j' k' hle
        subst hk
        refine ⟨by omega, ⟨pk, by simpa using hpk, hpke⟩, ?_⟩
        intro m hm1 hm2 q hq
        cases m with
        | zero => omega
        | succ m' =>
          simp only [List.getElem?_cons_succ] at hq
          exact h3 m' (by omega) (by omega) q hq
      | none =>
        rw [hle] at hk
        cases hE : p.isEdited
        · rw [hE] at hk; simp at hk
        · rw [hE] at hk
          obtain rfl : (0 : Nat) = k := by simpa using hk
          refine ⟨by omega, ⟨p, by simp, hE⟩, ?_⟩
          intro m hm1 hm2 q hq
          cases m with
          | zero => omega
          | succ m' =>
            simp only [List.getElem?_cons_succ] at hq
            exact lastEdited_none_not rest j' hle m' (by omega) q hq

theorem lastEdited_of_edited (ps : List Prompt) :
    ∀ j i p, i < j → ps[i]? = some p → p.isEdited = true →
      ∃ k, lastEdited ps j = some k ∧ i ≤ k := by
  induction ps with
  | nil =>
    intro j i p _ hp
    simp at hp
  | cons q rest ih =>
    intro j i p hij hp hpe
    cases j with
    | zero => omega
    | succ j' =>
      simp only [lastEdited]
      cases i with
      | zero =>
        simp only [List.getElem?_cons_zero, Option.some.injEq] at hp
        cases hle : lastEdited rest j' with
        | some k => exact ⟨k + 1, rfl, by omega⟩
        | none =>
          rw [← hp] at hpe
          rw [hpe]
          exact ⟨0, rfl, le_refl 0⟩
      | succ i' =>
        simp only [List.getElem?_cons_succ] at hp
        obtain ⟨k, hk, hik⟩ := ih j' i' p (by omega) hp hpe
        rw [hk]
        exact ⟨k + 1, rfl, by omega⟩

theorem annotate_isBranchPoint (eff : Option Nat) (p : Prompt)
    (h : p.isEdited = true) : (annotate eff p).isBranchPoint = true := by
  cases eff <;> simp [annotate, setPending, h]

theorem annotate_some_inBranch (k : Nat) (p : Prompt) :
    (annotate (some k) p).inBranch = true := by
  cases hE : p.isEdited <;> simp [annotate, setPending, hE]

theorem annotate_some_start (k : Nat) (p : Prompt) :
    (annotate (some k) p).branchStartIndex = some k := by
  cases hE : p.isEdited <;> simp [annotate, setPending, hE]

/-- C1: branch classification is a single left-to-right scan with
latest-edit-wins semantics. For every prompt list: an edited prompt at index
`i` ends up with `isBranchPoint = true`; every prompt at `j > i` ends up with
`inBranch = true` and `branchStartIndex = some k` where `k` is the latest
edited index below `j` (so `i ≤ k < j` and no edit lies strictly between `k`
and `j`). In particular, on `[P0..P4]` with `P1` and `P3` edited:
`P1.isBranchPoint`, `P2.branchStartIndex = 1`, `P3.isBranchPoint`, and
`P4.branchStartIndex = 3`. -/
theorem detectActiveBranch_latest_edit_wins :
    (∀ (ps : List Prompt) (i : Nat) (p : Prompt),
      ps[i]? = some p → p.isEdited = true →
      ∃ q, (detectActiveBranch ps)[i]? = some q ∧ q.isBranchPoint = true) ∧
    (∀ (ps : List Prompt) (j i : Nat) (p : Prompt),
      i < j → ps[i]? = some p → p.isEdited = true →
      ∀ q, (detectActiveBranch ps)[j]? = some q →
        q.inBranch = true ∧
        ∃ k, i ≤ k ∧ k < j ∧ q.branchStartIndex = some k ∧
          (∃ pk, ps[k]? = some pk ∧ pk.isEdited = true) ∧
          ∀ m, k < m → m < j → ∀ pm, ps[m]? = some pm → pm.isEdited = false) ∧
    (((detectActiveBranch exPrompts5)[1]?).map Prompt.isBranchPoint = some true ∧
     ((detectActiveBranch exPrompts5)[2]?).map Prompt.branchStartIndex = some (some 1) ∧
     ((detectActiveBranch exPrompts5)[3]?).map Prompt.isBranchPoint = some true ∧
     ((detectActiveBranch exPrompts5)[4]?).map Prompt.branchStartIndex = some (some 3)) := by
  refine ⟨?_, ?_, by simp only [detectActiveBranch_get]; decide⟩
  · intro ps i p hp hpe
    refine ⟨annotate (lastEdited ps i) p, ?_, annotate_isBranchPoint _ p hpe⟩
    rw [detectActiveBranch_get, hp]
    rfl
  · intro ps j i p hij hp hpe q hq
    obtain ⟨k, hk, hik⟩ := lastEdited_of_edited ps j i p hij hp hpe
    rw [detectActiveBranch_get, hk] at hq
    obtain ⟨pj, hpj, hq⟩ := Option.map_eq_some'.mp hq
    obtain ⟨hkj, hedit, hmax⟩ := lastEdited_spec ps j k hk
    rw [← hq]
    exact ⟨annotate_some_inBranch k pj,
      k, hik, hkj, annotate_some_start k pj, hedit, hmax⟩

/-- Witness: the general latest-edit-wins theorem applied to the concrete
five-prompt scenario, at edited index `1` and at index `4` after the later
edit point `3`. -/
theorem detectActiveBranch_latest_edit_wins_witness :
    (∃ q, (detectActiveBranch exPrompts5)[1]? = some q ∧ q.isBranchPoint = true) ∧
    (∀ q, (detectActiveBranch exPrompts5)[4]? = some q →
      q.inBranch = true ∧
      ∃ k, 3 ≤ k ∧ k < 4 ∧ q.branchStartIndex = some k ∧
        (∃ pk, exPrompts5[k]? = some pk ∧ pk.isEdited = true) ∧
        ∀ m, k < m → m < 4 → ∀ pm, exPrompts5[m]? = some pm → pm.isEdited = false) :=
  ⟨detectActiveBranch_latest_edit_wins.1 exPrompts5 1 (mkPrompt true) (by decide) (by decide),
   detectActiveBranch_latest_edit_wins.2.1 exPrompts5 4 3 (mkPrompt true)
     (by decide) (by decide) (by decide)⟩

/-! ### Extraction determinism -/

theorem extractPromptData_stripT (el : UserElement) (idx : Nat) (cid : String)
    (t1 t2 : Nat) :
    (extractPromptData el idx cid t1).map stripT =
      (extractPromptData el idx cid t2).map stripT := by
  simp only [extractPromptData]
  split <;> rfl

theorem findUserMessages_stripT (doc : DomDoc) (cid : String) (t1 t2 : Nat) :
    (findUserMessages doc cid t1).map stripT =
      (findUserMessages doc cid t2).map stripT := by
  simp only [findUserMessages, List.map_filterMap]
  congr 1
  funext p
  exact extractPromptData_stripT p.2 p.1 cid t1 t2

theorem extractAllPrompts_stripT (doc : DomDoc) (pathname : String) (t1 t2 : Nat) :
    (extractAllPrompts doc pathname t1).map stripT =
      (extractAllPrompts doc pathname t2).map stripT := by
  simp only [extractAllPrompts]
  cases getConversationId pathname with
  | none => rfl
  | some cid => exact findUserMessages_stripT doc cid t1 t2

/-- C4: extraction is deterministic/idempotent on a fixed snapshot. For a fixed
document and location, two calls of `extractAllPrompts` (at arbitrary clock
readings, the only other input) produce prompt lists of equal length, with
equal id sequences and equal element sequences — i.e. equal in everything
except the extraction timestamp. -/
theorem extractAllPrompts_deterministic (doc : DomDoc) (pathname : String)
    (t1 t2 : Nat) :
    (extractAllPrompts doc pathname t1).length =
      (extractAllPrompts doc pathname t2).length ∧
    (extractAllPrompts doc pathname t1).map Prompt.id =
      (extractAllPrompts doc pathname t2).map Prompt.id ∧
    (extractAllPrompts doc pathname t1).map Prompt.element =
      (extractAllPrompts doc pathname t2).map Prompt.element := by
  have h := extractAllPrompts_stripT doc pathname t1 t2
  have hid : Prompt.id ∘ stripT = Prompt.id := by funext p; rfl
  have hel : Prompt.element ∘ stripT = Prompt.element := by funext p; rfl
  refine ⟨?_, ?_, ?_⟩
  · have := congrArg List.length h
    simpa using this
  · have := congrArg (List.map Prompt.id) h
    simpa [List.map_map, hid] using this
  · have := congrArg (List.map Prompt.element) h
    simpa [List.map_map, hel] using this

/-- C2: heading-tier exclusivity. In both the ChatGPT cascade
(`h2,h3,h4,h5`) and the Claude cascade (`h1..h5`, with user-message headings
filtered out): when every coarser tier is empty and tier `h3` has at least one
match, extraction returns exactly the `h3` matches, in order, each labelled
`"h3"` — never an element of a finer tier. -/
theorem headingCascade_tier_exclusive :
    (∀ c : HContainer, c.h2 = [] → c.h3 ≠ [] →
      extractHeadingsFromElement c =
        (c.h3.enum.map fun p =>
          { level := ("h3"), text := ⟨jsTrim p.2.data⟩,
            turnId := c.testId, index := p.1 }) ∧
      (extractHeadingsFromElement c).length = c.h3.length ∧
      ∀ h ∈ extractHeadingsFromElement c, h.level = ("h3")) ∧
    (∀ (c : ClaudeContainer) (cid : Option String) (now : Nat),
      (c.h1.filter fun h => !h.inUserMessage) = [] →
      (c.h2.filter fun h => !h.inUserMessage) = [] →
      (c.h3.filter fun h => !h.inUserMessage) ≠ [] →
      claudeExtractHeadings c cid now =
        (((c.h3.filter fun h => !h.inUserMessage)).enum.map fun p =>
          { level := ("h3"), text := ⟨jsTrim p.2.text.data⟩,
            turnId := some (claudeTurnId c cid now), index := p.1 }) ∧
      ∀ h ∈ claudeExtractHeadings c cid now, h.level = ("h3")) := by
  constructor
  · intro c h2e h3ne
    have heq : extractHeadingsFromElement c =
        (c.h3.enum.map fun p =>
          { level := ("h3"), text := ⟨jsTrim p.2.data⟩,
            turnId := c.testId, index := p.1 } : List Heading) := by
      simp [extractHeadingsFromElement, firstTier, headingsAt, h2e,
        List.isEmpty_iff, h3ne]
    refine ⟨heq, ?_, ?_⟩
    · simp [heq]
    · intro h hm
      rw [heq] at hm
      simp only [List.mem_map] at hm
      obtain ⟨p, _, rfl⟩ := hm
      rfl
  · intro c cid now h1e h2e h3ne
    have heq : claudeExtractHeadings c cid now =
        (((c.h3.filter fun h => !h.inUserMessage)).enum.map fun p =>
          { level := ("h3"), text := ⟨jsTrim p.2.text.data⟩,
            turnId := some (claudeTurnId c cid now), index := p.1 } : List Heading) := by
      simp [claudeExtractHeadings, claudeFirstTier, claudeHeadingsAt, h1e, h2e,
        List.isEmpty_iff, h3ne]
    refine ⟨heq, ?_⟩
    intro h hm
    rw [heq] at hm
    simp only [List.mem_map] at hm
    obtain ⟨p, _, rfl⟩ := hm
    rfl

/-- Witness: a container holding one `h3` and one `h4` heading (headings at
two tiers) yields exactly the `h3` set for both adapters. -/
theorem headingCascade_tier_exclusive_witness :
    extractHeadingsFromElement
        { testId := some ("conversation-turn-3"), hasAssistant := true,
          h2 := [], h3 := [("Alpha")], h4 := [("Beta")], h5 := [] } =
      [{ level := ("h3"), text := ("Alpha"),
         turnId := some ("conversation-turn-3"), index := 0 }] ∧
    claudeExtractHeadings
        { renderCount := some ("7"), h1 := [], h2 := [],
          h3 := [{ text := ("Gamma"), inUserMessage := false }],
          h4 := [{ text := ("Delta"), inUserMessage := false }], h5 := [],
          strongs := [] } none 0 =
      [{ level := ("h3"), text := ("Gamma"),
         turnId := some ("claude-response-7"), index := 0 }] := by
  constructor
  · rw [(headingCascade_tier_exclusive.1
      { testId := some ("conversation-turn-3"), hasAssistant := true,
        h2 := [], h3 := [("Alpha")], h4 := [("Beta")], h5 := [] }
      (by decide) (by decide)).1]
    decide
  · rw [(headingCascade_tier_exclusive.2
      { renderCount := some ("7"), h1 := [], h2 := [],
        h3 := [{ text := ("Gamma"), inUserMessage := false }],
        h4 := [{ text := ("Delta"), inUserMessage := false }], h5 := [],
        strongs := [] } none 0 (by decide) (by decide) (by decide)).1]
    decide

/-- C3 counterexample: a turn whose only version affordance is a *disabled*
Previous button with no nav container is still classified as edited —
`isEdited = true` with no enabled button reference and no counter — refuting
"isEdited only when an enabled navigator with both affordance and counter is
exposed". -/
theorem isEdited_counterexample :
    isEditedOf c3El = true ∧
    (getBranchInfo c3El).map BranchInfo.prevButton = some none ∧
    (getBranchInfo c3El).map BranchInfo.nextButton = some none ∧
    (getBranchInfo c3El).map BranchInfo.current = some none ∧
    (getBranchInfo c3El).map BranchInfo.total = some none := by
  refine ⟨rfl, rfl, rfl, rfl, rfl⟩

/-- C3 (amended): `isEdited` is true exactly when the prompt element has a
conversation-turn ancestor carrying at least one Previous/Next-response button
element — enabled or not, with or without a counter. Version counters are
parsed from the nav container text matching `current/total`, and `current` and
`total` are absent (`none`, not zero) whenever the nav container is missing or
its text does not match; they are the parsed values when it does. -/
theorem isEdited_and_counter_amended :
    (∀ el : UserElement, isEditedOf el = true ↔
      ∃ t, el.turn = some t ∧ (t.prevButtonEl.isSome ∨ t.nextButtonEl.isSome)) ∧
    (∀ (el : UserElement) (t : Turn) (bi : BranchInfo),
      el.turn = some t → getBranchInfo el = some bi →
      (navTextOf t = none → bi.current = none ∧ bi.total = none) ∧
      (∀ txt, navTextOf t = some txt → matchCounter txt.data = none →
        bi.current = none ∧ bi.total = none) ∧
      (∀ txt cur tot, navTextOf t = some txt →
        matchCounter txt.data = some (cur, tot) →
        (t.prevButtonEl.isSome ∨ t.nextButtonEl.isSome) →
        bi.current = some cur ∧ bi.total = some tot)) := by
  constructor
  · intro el
    cases hT : el.turn with
    | none => simp [isEditedOf, getBranchInfo, hT]
    | some t =>
      simp only [isEditedOf, getBranchInfo, hT]
      by_cases hB : t.prevButtonEl.isNone && t.nextButtonEl.isNone
      · rw [if_pos hB]
        simp only [Bool.and_eq_true, Option.isNone_iff_eq_none] at hB
        simp [hB.1, hB.2]
      · rw [if_neg hB]
        have hBor : t.prevButtonEl.isSome = true ∨ t.nextButtonEl.isSome = true := by
          cases hp : t.prevButtonEl with
          | some b => exact Or.inl rfl
          | none =>
            cases hn : t.nextButtonEl with
            | some b => exact Or.inr rfl
            | none => exact absurd (by rw [hp, hn]; rfl) hB
        refine ⟨fun _ => ⟨t, rfl, hBor⟩, fun _ => ?_⟩
        cases hN : navTextOf t with
        | none => rfl
        | some txt =>
          cases hM : matchCounter txt.data with
          | none => simp [hM]
          | some ct =>
            obtain ⟨cur, tot⟩ := ct
            simp [hM]
  · intro el t bi hT hBI
    simp only [getBranchInfo, hT] at hBI
    by_cases hB : t.prevButtonEl.isNone && t.nextButtonEl.isNone
    · rw [if_pos hB] at hBI
      obtain rfl := Option.some_injective _ hBI
      refine ⟨fun _ => ⟨rfl, rfl⟩, fun txt _ _ => ⟨rfl, rfl⟩, ?_⟩
      intro txt cur tot _ _ hsome
      simp only [Bool.and_eq_true, Option.isNone_iff_eq_none] at hB
      rcases hsome with h | h
      · rw [hB.1] at h; simp at h
      · rw [hB.2] at h; simp at h
    · rw [if_neg hB] at hBI
      cases hN : navTextOf t with
      | none =>
        simp only [hN] at hBI
        obtain rfl := Option.some_injective _ hBI
        refine ⟨fun _ => ⟨rfl, rfl⟩, ?_, ?_⟩
        · intro txt htxt
          exact absurd htxt (by simp)
        · intro txt cur tot htxt
          exact absurd htxt (by simp)
      | some txt0 =>
        simp only [hN] at hBI
        cases hM : matchCounter txt0.data with
        | none =>
          simp only [hM] at hBI
          obtain rfl := Option.some_injective _ hBI
          refine ⟨?_, fun txt _ _ => ⟨rfl, rfl⟩, ?_⟩
          · intro h
            exact absurd h (by simp)
          · intro txt cur tot htxt hmc _
            have hte : txt0 = txt := by simpa using htxt
            subst hte
            rw [hM] at hmc
            cases hmc
        | some ct =>
          obtain ⟨cur0, tot0⟩ := ct
          simp only [hM] at hBI
          obtain rfl := Option.some_injective _ hBI
          refine ⟨?_, ?_, ?_⟩
          · intro h
            exact absurd h (by simp)
          · intro txt htxt hmc
            have hte : txt0 = txt := by simpa using htxt
            subst hte
            rw [hM] at hmc
            cases hmc
          · intro txt cur tot htxt hmc _
            have hte : txt0 = txt := by simpa using htxt
            subst hte
            rw [hM] at hmc
            have hct : cur0 = cur ∧ tot0 = tot := by simpa using hmc
            obtain ⟨rfl, rfl⟩ := hct
            exact ⟨rfl, rfl⟩

/-- Witness: the amended characterization applied to a turn with an enabled
Previous button and counter text `"2 / 2"`. -/
theorem isEdited_and_counter_amended_witness :
    isEditedOf c3WEl = true ∧
    (∃ bi, getBranchInfo c3WEl = some bi ∧ bi.current = some 2 ∧ bi.total = some 2) := by
  have h1 := (isEdited_and_counter_amended.1 c3WEl).mpr
    ⟨{ testId := ("conversation-turn-4"),
       prevButtonEl := some { disabled := false, parentText := some ("2 / 2") },
       nextButtonEl := some { disabled := true, parentText := some ("2 / 2") },
       nextSibling := none }, rfl, Or.inl rfl⟩
  have h2 := (isEdited_and_counter_amended.2 c3WEl
    { testId := ("conversation-turn-4"),
      prevButtonEl := some { disabled := false, parentText := some ("2 / 2") },
      nextButtonEl := some { disabled := true, parentText := some ("2 / 2") },
      nextSibling := none }
    { hasBranches := true, current := some 2, total := some 2,
      prevButton := some { disabled := false, parentText := some ("2 / 2") } }
    rfl (by decide)).2.2 ("2 / 2") 2 2 rfl (by decide) (Or.inl rfl)
  exact ⟨h1,
    ⟨{ hasBranches := true, current := some 2, total := some 2,
       prevButton := some { disabled := false, parentText := some ("2 / 2") } },
     by decide, h2⟩⟩

theorem getBranchInfo_buttonFields (el : UserElement) (t : Turn) (bi : BranchInfo)
    (hT : el.turn = some t) (hBI : getBranchInfo el = some bi) :
    bi.prevButton = (match t.prevButtonEl with
      | some b => if !b.disabled then some b else none
      | none => none) ∧
    bi.nextButton = (match t.nextButtonEl with
      | some b => if !b.disabled then some b else none
      | none => none) := by
  simp only [getBranchInfo, hT] at hBI
  by_cases hB : t.prevButtonEl.isNone && t.nextButtonEl.isNone
  · rw [if_pos hB] at hBI
    obtain rfl := Option.some_injective _ hBI
    simp only [Bool.and_eq_true, Option.isNone_iff_eq_none] at hB
    rw [hB.1, hB.2]
    exact ⟨rfl, rfl⟩
  · rw [if_neg hB] at hBI
    cases hN : navTextOf t with
    | none =>
      simp only [hN] at hBI
      obtain rfl := Option.some_injective _ hBI
      exact ⟨rfl, rfl⟩
    | some txt0 =>
      simp only [hN] at hBI
      cases hM : matchCounter txt0.data with
      | none =>
        simp only [hM] at hBI
        obtain rfl := Option.some_injective _ hBI
        exact ⟨rfl, rfl⟩
      | some ct =>
        obtain ⟨c0, t0⟩ := ct
        simp only [hM] at hBI
        obtain rfl := Option.some_injective _ hBI
        exact ⟨rfl, rfl⟩

/-- C7: `BranchInfo` never carries a disabled action reference, and the panel
renders a branch button only for a present reference. A `prevButton`/
`nextButton` in a produced `BranchInfo` is always an existing, currently
enabled host button; a missing or disabled host button yields an absent
(`none`) reference; and `createPromptItem` shows the `<`/`>` buttons only when
the corresponding reference is present — hence only for enabled buttons. -/
theorem branchInfo_never_disabled_ref (el : UserElement) (bi : BranchInfo)
    (h : getBranchInfo el = some bi) :
    (∀ b, bi.prevButton = some b →
      b.disabled = false ∧ ∃ t, el.turn = some t ∧ t.prevButtonEl = some b) ∧
    (∀ b, bi.nextButton = some b →
      b.disabled = false ∧ ∃ t, el.turn = some t ∧ t.nextButtonEl = some b) ∧
    (∀ t, el.turn = some t →
      ((t.prevButtonEl = none ∨ ∃ b, t.prevButtonEl = some b ∧ b.disabled = true) →
        bi.prevButton = none) ∧
      ((t.nextButtonEl = none ∨ ∃ b, t.nextButtonEl = some b ∧ b.disabled = true) →
        bi.nextButton = none)) ∧
    (∀ p : Prompt, p.branchInfo = some bi →
      (promptItemHasPrev p = true →
        ∃ b, bi.prevButton = some b ∧ b.disabled = false) ∧
      (promptItemHasNext p = true →
        ∃ b, bi.nextButton = some b ∧ b.disabled = false)) := by
  cases hT : el.turn with
  | none => simp [getBranchInfo, hT] at h
  | some t =>
    obtain ⟨hPf, hNf⟩ := getBranchInfo_buttonFields el t bi hT h
    have hprev : ∀ b, bi.prevButton = some b →
        b.disabled = false ∧ ∃ t', some t = some t' ∧ t'.prevButtonEl = some b := by
      intro b hb
      rw [hPf] at hb
      cases hpe : t.prevButtonEl with
      | none => simp [hpe] at hb
      | some b0 =>
        simp only [hpe] at hb
        by_cases hd : b0.disabled
        · simp [hd] at hb
        · simp only [hd, Bool.not_false, if_true] at hb
          obtain rfl := Option.some_injective _ hb
          exact ⟨Bool.not_eq_true _ ▸ hd, t, rfl, hpe⟩
    have hnext : ∀ b, bi.nextButton = some b →
        b.disabled = false ∧ ∃ t', some t = some t' ∧ t'.nextButtonEl = some b := by
      intro b hb
      rw [hNf] at hb
      cases hpe : t.nextButtonEl with
      | none => simp [hpe] at hb
      | some b0 =>
        simp only [hpe] at hb
        by_cases hd : b0.disabled
        · simp [hd] at hb
        · simp only [hd, Bool.not_false, if_true] at hb
          obtain rfl := Option.some_injective _ hb
          exact ⟨Bool.not_eq_true _ ▸ hd, t, rfl, hpe⟩
    refine ⟨hprev, hnext, ?_, ?_⟩
    · intro t' hT'
      obtain rfl : t = t' := Option.some_injective _ hT'
      constructor
      · intro hcase
        rw [hPf]
        rcases hcase with hnone | ⟨b, hb, hd⟩
        · simp [hnone]
        · simp [hb, hd]
      · intro hcase
        rw [hNf]
        rcases hcase with hnone | ⟨b, hb, hd⟩
        · simp [hnone]
        · simp [hb, hd]
    · intro p hp
      constructor
      · intro hx
        simp only [promptItemHasPrev, promptItemHasBranches, hp, Bool.and_eq_true,
          Option.some_bind, Option.isSome_iff_exists] at hx
        obtain ⟨-, b, hb⟩ := hx
        exact ⟨b, hb, (hprev b hb).1⟩
      · intro hx
        simp only [promptItemHasNext, promptItemHasBranches, hp, Bool.and_eq_true,
          Option.some_bind, Option.isSome_iff_exists] at hx
        obtain ⟨-, b, hb⟩ := hx
        exact ⟨b, hb, (hnext b hb).1⟩

/-- Witness: the no-disabled-reference theorem applied to a turn with an
enabled Previous button and a disabled Next button. -/
theorem branchInfo_never_disabled_ref_witness :
    ∃ bi, getBranchInfo c3WEl = some bi ∧
      (∀ b, bi.prevButton = some b →
        b.disabled = false ∧ ∃ t, c3WEl.turn = some t ∧ t.prevButtonEl = some b) ∧
      bi.nextButton = none := by
  refine ⟨{ hasBranches := true, current := some 2, total := some 2,
            prevButton := some { disabled := false, parentText := some ("2 / 2") } },
          by decide, ?_, rfl⟩
  have h := branchInfo_never_disabled_ref c3WEl
    { hasBranches := true, current := some 2, total := some 2,
      prevButton := some { disabled := false, parentText := some ("2 / 2") } }
    (by decide)
  exact h.1

/-- C5: keyboard traversal clamps at the array bounds with no wraparound, in
both modes. Stepping "next" (`Alt+Down`) when the navigation index is at the
last item, or "previous" (`Alt+Up`) at index `0`, leaves the whole sidebar
state (in particular `navigationIndex`) unchanged; the same holds in
prompts-only mode (`Alt+Shift+Down`/`Alt+Shift+Up`) for the current prompt
index. -/
theorem keyboard_navigation_clamps (s : SidebarState) (vis visP : Nat) :
    (s.flatNavigationList ≠ [] →
      s.navigationIndex = (s.flatNavigationList.length : Int) - 1 →
      handleAltArrow s vis true = s) ∧
    (s.flatNavigationList ≠ [] → s.navigationIndex = 0 →
      handleAltArrow s vis false = s) ∧
    (s.prompts ≠ [] →
      s.currentPromptIndex = (s.prompts.length : Int) - 1 →
      handleAltShiftArrow s visP true = s) ∧
    (s.prompts ≠ [] → s.currentPromptIndex = 0 →
      handleAltShiftArrow s visP false = s) := by
  have hlist : s.flatNavigationList ≠ [] → s.flatNavigationList.isEmpty = false := by
    intro h
    cases hc : s.flatNavigationList with
    | nil => exact absurd hc h
    | cons a l => rfl
  have hplist : s.prompts ≠ [] → s.prompts.isEmpty = false := by
    intro h
    cases hc : s.prompts with
    | nil => exact absurd hc h
    | cons a l => rfl
  have hlen : s.flatNavigationList ≠ [] → 1 ≤ (s.flatNavigationList.length : Int) := by
    intro h
    cases hc : s.flatNavigationList with
    | nil => exact absurd hc h
    | cons a l => simp
  have hplen : s.prompts ≠ [] → 1 ≤ (s.prompts.length : Int) := by
    intro h
    cases hc : s.prompts with
    | nil => exact absurd hc h
    | cons a l => simp
  refine ⟨fun hne hidx => ?_, fun hne hidx => ?_, fun hne hidx => ?_, fun hne hidx => ?_⟩
  · have h1 := hlen hne
    simp only [handleAltArrow, hlist hne, Bool.false_eq_true, if_false, if_true]
    rw [if_neg (by omega : ¬s.navigationIndex = -1)]
    rw [if_neg (by omega : ¬(0 ≤ s.navigationIndex + 1 ∧
      s.navigationIndex + 1 < (s.flatNavigationList.length : Int)))]
  · have h1 := hlen hne
    simp only [handleAltArrow, hlist hne, Bool.false_eq_true, if_false, if_true]
    rw [if_neg (by omega : ¬s.navigationIndex = -1)]
    rw [if_neg (by omega : ¬(0 ≤ s.navigationIndex + -1 ∧
      s.navigationIndex + -1 < (s.flatNavigationList.length : Int)))]
  · have h1 := hplen hne
    simp only [handleAltShiftArrow, hplist hne, Bool.false_eq_true, if_false, if_true]
    rw [if_neg (by omega : ¬s.currentPromptIndex = -1)]
    rw [if_neg (by omega : ¬(0 ≤ s.currentPromptIndex + 1 ∧
      s.currentPromptIndex + 1 < (s.prompts.length : Int)))]
  · have h1 := hplen hne
    simp only [handleAltShiftArrow, hplist hne, Bool.false_eq_true, if_false, if_true]
    rw [if_neg (by omega : ¬s.currentPromptIndex = -1)]
    rw [if_neg (by omega : ¬(0 ≤ s.currentPromptIndex + -1 ∧
      s.currentPromptIndex + -1 < (s.prompts.length : Int)))]

/-- Witness: the clamp theorem applied to a concrete two-prompt sidebar state
with a three-item navigation list, at its last item and at index `0`. -/
theorem keyboard_navigation_clamps_witness :
    handleAltArrow exSidebar 0 true = exSidebar ∧
    handleAltShiftArrow { exSidebar with currentPromptIndex := 0 } 0 false =
      { exSidebar with currentPromptIndex := 0 } :=
  ⟨(keyboard_navigation_clamps exSidebar 0 0).1 (by decide) (by decide),
   (keyboard_navigation_clamps { exSidebar with currentPromptIndex := 0 } 0 0).2.2.2
     (by decide) (by decide)⟩

/-- C6: evaluation of the navigation handler at a failing input. With both a
debounce timer and a streaming-poll timer pending for conversation `aaa`, a
URL change to conversation `bbb` is processed (the URL is recorded and the new
conversation's loading state is set up) while **both stale timers are left
pending** — the `locationchange` listener never clears them; only `destroy()`
(which runs on `beforeunload`, not on in-page navigation) cancels them. -/
theorem navigation_leaves_stale_timers :
    (onLocationChange c6State ("https://chatgpt.com/c/bbb")).lastUrl =
      ("https://chatgpt.com/c/bbb") ∧
    (onLocationChange c6State ("https://chatgpt.com/c/bbb")).loadingState =
      some ("waiting") ∧
    (onLocationChange c6State ("https://chatgpt.com/c/bbb")).waitingForContent = true ∧
    (onLocationChange c6State ("https://chatgpt.com/c/bbb")).debounceTimer = some 7 ∧
    (onLocationChange c6State ("https://chatgpt.com/c/bbb")).streamingPollTimer =
      some 9 ∧
    (destroyTimers c6State).debounceTimer = none ∧
    (destroyTimers c6State).streamingPollTimer = none := by
  refine ⟨?_, ?_, ?_, ?_, ?_, rfl, rfl⟩ <;> decide

/-- C8: dual-viewport reveal semantics. Revealing in the panel viewport is a
no-op when the target lies fully inside the visible band (and when the item
cannot be resolved); when the target is outside the band the panel scrolls to
the centering offset clamped at `0`, which puts the target's center on the
viewport's center whenever the unclamped offset is nonnegative. Revealing in
the main viewport always computes that same centering destination, and the
manual animation reaches it exactly — instantly for `duration ≤ 0`, and at any
frame with `elapsed ≥ duration` otherwise. -/
theorem reveal_noop_inside_band_centers_otherwise (content : Viewport) (t : Rect)
    (c : Viewport) (el : Rect) (d elapsed : ℚ) :
    (content.rect.top ≤ t.top → t.bottom ≤ content.rect.bottom →
      scrollSidebarToItem content (some t) = content) ∧
    scrollSidebarToItem content none = content ∧
    ((t.top < content.rect.top ∨ content.rect.bottom < t.bottom) →
      (scrollSidebarToItem content (some t)).scrollTop =
        max 0 (content.scrollTop + t.top - content.rect.top
                - content.rect.height / 2 + t.height / 2) ∧
      (0 ≤ content.scrollTop + t.top - content.rect.top
            - content.rect.height / 2 + t.height / 2 →
        t.top - ((scrollSidebarToItem content (some t)).scrollTop
                  - content.scrollTop) + t.height / 2 =
          content.rect.top + content.rect.height / 2)) ∧
    (0 ≤ c.scrollTop + el.top - c.rect.top - c.rect.height / 2 + el.height / 2 →
      el.top - (scrollToElementTarget c el - c.scrollTop) + el.height / 2 =
        c.rect.top + c.rect.height / 2) ∧
    (0 < d → d ≤ elapsed →
      smoothScrollTopAt c.scrollTop (scrollToElementTarget c el) d elapsed =
        scrollToElementTarget c el) ∧
    (d ≤ 0 →
      smoothScrollTopAt c.scrollTop (scrollToElementTarget c el) d elapsed =
        scrollToElementTarget c el) := by
  refine ⟨fun h1 h2 => ?_, rfl, fun hout => ?_, fun hpos => ?_, fun hd hde => ?_,
    fun hd => ?_⟩
  · simp only [scrollSidebarToItem]
    rw [if_neg]
    push_neg
    exact ⟨h1, h2⟩
  · constructor
    · simp only [scrollSidebarToItem]
      rw [if_pos hout]
    · intro hnn
      simp only [scrollSidebarToItem]
      rw [if_pos hout]
      simp only [Viewport.mk.injEq]
      rw [max_eq_right hnn]
      ring
  · rw [scrollToElementTarget]
    rw [max_eq_right hpos]
    ring
  · simp only [smoothScrollTopAt]
    rw [if_neg (by linarith : ¬d ≤ 0)]
    have hone : (1 : ℚ) ≤ elapsed / d := (one_le_div hd).mpr hde
    rw [min_eq_right hone]
    simp [easeOutCubic]
  · simp only [smoothScrollTopAt]
    rw [if_pos hd]

/-- Witness: the reveal theorem applied to a concrete panel viewport, with a
target inside the band (no-op) and a target below the band (centered). -/
theorem reveal_noop_witness :
    scrollSidebarToItem { rect := { top := 0, height := 100 }, scrollTop := 40 }
        (some { top := 10, height := 20 }) =
      { rect := { top := 0, height := 100 }, scrollTop := 40 } ∧
    (scrollSidebarToItem { rect := { top := 0, height := 100 }, scrollTop := 40 }
        (some { top := 90, height := 40 })).scrollTop =
      max 0 ((40 : ℚ) + 90 - 0 - 100 / 2 + 40 / 2) :=
  ⟨(reveal_noop_inside_band_centers_otherwise
      { rect := { top := 0, height := 100 }, scrollTop := 40 }
      { top := 10, height := 20 }
      { rect := { top := 0, height := 100 }, scrollTop := 40 }
      { top := 10, height := 20 } 0 0).1 (by norm_num) (by norm_num [Rect.bottom]),
   ((reveal_noop_inside_band_centers_otherwise
      { rect := { top := 0, height := 100 }, scrollTop := 40 }
      { top := 90, height := 40 }
      { rect := { top := 0, height := 100 }, scrollTop := 40 }
      { top := 90, height := 40 } 0 0).2.2.1
      (Or.inr (by norm_num [Rect.bottom]))).1⟩

/-- C9: loading persisted preferences falls back to hard-coded defaults. A
stored width is applied only when it lies within `[minWidth, maxWidth] =
[120, 400]`; a stored scroll duration only within `[0, 600]`; a missing or
out-of-range value — or a failed storage read — yields the defaults
`width = 200`, `scrollDuration = 100`, `isPinned = false`. -/
theorem loadState_defaults (r : StoredState) :
    (∀ w, r.sidebarWidth = some w →
      ((120 ≤ w ∧ w ≤ 400) → (loadState (some r) initialConfig).width = w) ∧
      (¬(120 ≤ w ∧ w ≤ 400) → (loadState (some r) initialConfig).width = 200)) ∧
    (r.sidebarWidth = none → (loadState (some r) initialConfig).width = 200) ∧
    (∀ d, r.scrollDuration = some d →
      ((0 ≤ d ∧ d ≤ 600) → (loadState (some r) initialConfig).scrollDur = d) ∧
      (¬(0 ≤ d ∧ d ≤ 600) → (loadState (some r) initialConfig).scrollDur = 100)) ∧
    (r.scrollDuration = none → (loadState (some r) initialConfig).scrollDur = 100) ∧
    (r.sidebarPinned = none → (loadState (some r) initialConfig).isPinned = false) ∧
    loadState none initialConfig =
      { isPinned := false, isVisible := false, width := 200, scrollDur := 100 } := by
  refine ⟨?_, ?_, ?_, ?_, ?_, rfl⟩
  · intro w hw
    constructor
    · intro hin
      simp only [loadState, hw, initialConfig]
      rw [if_pos ⟨by omega, by exact hin.1, by exact hin.2⟩]
    · intro hout
      simp only [loadState, hw, initialConfig]
      rw [if_neg (by omega : ¬(w ≠ 0 ∧ (120 : Int) ≤ w ∧ w ≤ (400 : Int)))]
  · intro hw
    simp [loadState, hw, initialConfig]
  · intro d hd
    constructor
    · intro hin
      simp only [loadState, hd, initialConfig]
      rw [if_pos hin]
    · intro hout
      simp only [loadState, hd, initialConfig]
      rw [if_neg hout]
  · intro hd
    simp [loadState, hd, initialConfig]
  · intro hp
    simp [loadState, hp]

/-- Witness: the preference-loading theorem applied to a stored state with an
out-of-range width (`1000`), an in-range duration (`250`), and no pin flag. -/
theorem loadState_defaults_witness :
    (loadState (some { sidebarPinned := none, sidebarWidth := some 1000,
                       scrollDuration := some 250 }) initialConfig).width = 200 ∧
    (loadState (some { sidebarPinned := none, sidebarWidth := some 1000,
                       scrollDuration := some 250 }) initialConfig).scrollDur = 250 ∧
    (loadState (some { sidebarPinned := none, sidebarWidth := some 1000,
                       scrollDuration := some 250 }) initialConfig).isPinned = false := by
  have h := loadState_defaults
    { sidebarPinned := none, sidebarWidth := some 1000, scrollDuration := some 250 }
  exact ⟨((h.1 1000 rfl).2 (by omega)),
         ((h.2.2.1 250 rfl).1 (by omega)),
         h.2.2.2.2.1 rfl⟩

end OctoGPT
